import Mathlib

/-!
DS1302 real-time-clock driver (drivers/rtc/rtc-ds1302.c).

A shallow embedding of the bit-banged three-wire protocol engine and of the
time/register codec.  The driver functions are written once, over an abstract
line backend (`LineBackend`), exactly as the C code is written over the GPIO
calls; concrete backends (a bus recorder, a clocked loopback, a simulated chip)
are plugged in afterwards.

Machine integers: `unsigned int` values are `Nat` (reduced `% 2^32` where a
conversion can wrap), `int` values are `Int`.
-/

namespace DS1302

/-! ## Constants of the source -/

/-- Read command. -/
def RTC_CMD_READ : Nat := 0x81
/-- Write command. -/
def RTC_CMD_WRITE : Nat := 0x80

/-- Address of RAM0. -/
def RTC_ADDR_RAM0 : Nat := 0x20
/-- Address of trickle charge register. -/
def RTC_ADDR_TCR : Nat := 0x08
/-- Address of year register. -/
def RTC_ADDR_YEAR : Nat := 0x06
/-- Address of day of week register. -/
def RTC_ADDR_DAY : Nat := 0x05
/-- Address of month register. -/
def RTC_ADDR_MON : Nat := 0x04
/-- Address of day of month register. -/
def RTC_ADDR_DATE : Nat := 0x03
/-- Address of hour register. -/
def RTC_ADDR_HOUR : Nat := 0x02
/-- Address of minute register. -/
def RTC_ADDR_MIN : Nat := 0x01
/-- Address of second register. -/
def RTC_ADDR_SEC : Nat := 0x00

/-- Errno value returned (negated) for an invalid time. -/
def EINVAL : Int := 22

/-! ## The line backend -/

/-- The three lines of `struct ds1302_gpio`: the field that holds the pin
handle stands for the pin. -/
inductive Pin where
  | reset_pin
  | sclk_pin
  | io_pin
deriving DecidableEq, Repr

/-- The GPIO and delay calls the driver makes, as state transformers on a
backend state `σ`.  `gpio_get_value` returns the sampled level together with
the next state (a recording backend logs the read). -/
structure LineBackend (σ : Type) where
  gpio_direction_output : Pin → Nat → σ → σ
  gpio_direction_input : Pin → σ → σ
  gpio_set_value : Pin → Nat → σ → σ
  gpio_get_value : Pin → σ → Nat × σ
  udelay : Nat → σ → σ

section Driver

variable {σ : Type} (B : LineBackend σ)

/-! ## Bit protocol (generic GPIO variant, the `#else` branch) -/

/-- `ds1302_set_tx`: data line to output, initial level 1. -/
def ds1302_set_tx (s : σ) : σ :=
  B.gpio_direction_output Pin.io_pin 1 s

/-- `ds1302_set_rx`: data line to input. -/
def ds1302_set_rx (s : σ) : σ :=
  B.gpio_direction_input Pin.io_pin s

/-- `ds1302_reset`: chip-select low, clock low, data line input. -/
def ds1302_reset (s : σ) : σ :=
  let s1 := B.gpio_direction_output Pin.reset_pin 0 s
  let s2 := B.gpio_direction_output Pin.sclk_pin 0 s1
  B.gpio_direction_input Pin.io_pin s2

/-- `ds1302_clock`: clock high, wait 1, clock low, wait 1. -/
def ds1302_clock (s : σ) : σ :=
  let s1 := B.gpio_set_value Pin.sclk_pin 1 s
  let s2 := B.udelay 1 s1
  let s3 := B.gpio_set_value Pin.sclk_pin 0 s2
  B.udelay 1 s3

/-- `ds1302_start`: chip-select high. -/
def ds1302_start (s : σ) : σ :=
  B.gpio_set_value Pin.reset_pin 1 s

/-- `ds1302_stop`: chip-select low. -/
def ds1302_stop (s : σ) : σ :=
  B.gpio_set_value Pin.reset_pin 0 s

/-- `ds1302_txbit`: drive the data line with `bit`. -/
def ds1302_txbit (bit : Nat) (s : σ) : σ :=
  B.gpio_set_value Pin.io_pin bit s

/-- `ds1302_rxbit`: `!!(gpio_get_value(io_pin))`. -/
def ds1302_rxbit (s : σ) : Nat × σ :=
  let r := B.gpio_get_value Pin.io_pin s
  (if r.1 ≠ 0 then 1 else 0, r.2)

/-! ## Byte framing -/

/-- The loop of `ds1302_sendbits`: `for (i = 8; (i); i--, val >>= 1)`, with the
counter `i` as the recursion argument. -/
def sendbits_loop : Nat → Nat → σ → σ
  | 0, _, s => s
  | i + 1, val, s =>
    let s1 := ds1302_txbit B (val &&& 0x1) s
    let s2 := ds1302_clock B s1
    sendbits_loop i (val >>> 1) s2

/-- `ds1302_sendbits`. -/
def ds1302_sendbits (val : Nat) (s : σ) : σ :=
  sendbits_loop B 8 val (ds1302_set_tx B s)

/-- The loop of `ds1302_recvbits`: `for (i = 0, val = 0; (i < 8); i++)`.  The
first argument is the number of iterations left (`8 - i`). -/
def recvbits_loop : Nat → Nat → Nat → σ → Nat × σ
  | 0, _, val, s => (val, s)
  | n + 1, i, val, s =>
    let r := ds1302_rxbit B s
    let val1 := val ||| (r.1 <<< i)
    let s2 := ds1302_clock B r.2
    recvbits_loop n (i + 1) val1 s2

/-- `ds1302_recvbits`. -/
def ds1302_recvbits (s : σ) : Nat × σ :=
  recvbits_loop B 8 0 0 (ds1302_set_rx B s)

/-- The command byte expression of `ds1302_readbyte`. -/
def read_command (addr : Nat) : Nat :=
  ((addr &&& 0x3f) <<< 1) ||| RTC_CMD_READ

/-- The command byte expression of `ds1302_writebyte`. -/
def write_command (addr : Nat) : Nat :=
  ((addr &&& 0x3f) <<< 1) ||| RTC_CMD_WRITE

/-- `ds1302_readbyte`. -/
def ds1302_readbyte (addr : Nat) (s : σ) : Nat × σ :=
  let s1 := ds1302_reset B s
  let s2 := ds1302_start B s1
  let s3 := B.udelay 4 s2
  let s4 := ds1302_sendbits B (read_command addr) s3
  let r := ds1302_recvbits B s4
  (r.1, ds1302_stop B r.2)

/-- `ds1302_writebyte`. -/
def ds1302_writebyte (addr : Nat) (val : Nat) (s : σ) : σ :=
  let s1 := ds1302_reset B s
  let s2 := ds1302_start B s1
  let s3 := B.udelay 4 s2
  let s4 := ds1302_sendbits B (write_command addr) s3
  let s5 := ds1302_sendbits B val s4
  ds1302_stop B s5

end Driver

/-! ## BCD helpers and time validation (kernel library code used by the driver) -/

/-- Modelled from the spec: `bcd2bin` of `linux/bcd.h` (lib/bcd.c), which is
not part of the driver file.  Each decimal digit occupies 4 bits of a byte
(0x23 represents decimal 23); the argument is converted to a byte. -/
def bcd2bin (val : Nat) : Nat :=
  let v := val % 256
  (v &&& 0x0f) + (v >>> 4) * 10

/-- Modelled from the spec: `bin2bcd` of `linux/bcd.h` (lib/bcd.c), which is
not part of the driver file.  The tens digit goes to the high 4 bits, the units
digit to the low 4 bits; the result is a byte, so values of 100 and more
wrap. -/
def bin2bcd (val : Nat) : Nat :=
  (((val / 10) <<< 4) + val % 10) % 256

/-- The fields of `struct rtc_time` the driver reads and writes. -/
structure rtc_time where
  tm_sec : Int
  tm_min : Int
  tm_hour : Int
  tm_mday : Int
  tm_mon : Int
  tm_year : Int
  tm_wday : Int
deriving DecidableEq, Repr

/-- Modelled from the spec: Gregorian leap-year rule used by the calendar
validation (`is_leap_year` of `linux/rtc.h`). -/
def is_leap_year (year : Int) : Bool :=
  (year % 4 == 0 && year % 100 != 0) || year % 400 == 0

/-- Modelled from the spec: number of days of month `month` (0..11) of calendar
year `year` (`rtc_month_days` of drivers/rtc/lib.c). -/
def rtc_month_days (month : Int) (year : Int) : Int :=
  [31, 28, 31, 30, 31, 30, 31, 31, 30, 31, 30, 31].getD month.toNat 0
    + (if is_leap_year year && month == 1 then 1 else 0)

/-- Modelled from the spec: `rtc_valid_tm` of drivers/rtc/lib.c, the range
validation behind the InvalidTime error.  It returns `-EINVAL` when the fields
are not a well-formed calendar date (year before 1970, month out of 0..11, day
out of the valid range for that month, hours, minutes or seconds out of range)
and 0 otherwise.  The day of the week is not validated. -/
def rtc_valid_tm (tm : rtc_time) : Int :=
  if tm.tm_year < 70
      ∨ tm.tm_mon < 0 ∨ 12 ≤ tm.tm_mon
      ∨ tm.tm_mday < 1
      ∨ rtc_month_days tm.tm_mon (tm.tm_year + 1900) < tm.tm_mday
      ∨ tm.tm_hour < 0 ∨ 24 ≤ tm.tm_hour
      ∨ tm.tm_min < 0 ∨ 60 ≤ tm.tm_min
      ∨ tm.tm_sec < 0 ∨ 60 ≤ tm.tm_sec then
    -EINVAL
  else
    0

/-- Conversion of an `int` to `unsigned int`. -/
def to_unsigned (x : Int) : Nat :=
  (x % 4294967296).toNat

/-! ## Time codec -/

section Codec

variable {σ : Type} (B : LineBackend σ)

/-- `ds1302_rtc_read_time`: the return code, the filled `tm` and the backend
state.  `bcd2bin` yields an `unsigned`, so the month is `unsigned - 1` stored
into an `int` (0 becomes -1). -/
def ds1302_rtc_read_time (s : σ) : Int × rtc_time × σ :=
  let r0 := ds1302_readbyte B RTC_ADDR_SEC s
  let tm_sec : Int := bcd2bin r0.1
  let r1 := ds1302_readbyte B RTC_ADDR_MIN r0.2
  let tm_min : Int := bcd2bin r1.1
  let r2 := ds1302_readbyte B RTC_ADDR_HOUR r1.2
  let tm_hour : Int := bcd2bin r2.1
  let r3 := ds1302_readbyte B RTC_ADDR_DAY r2.2
  let tm_wday : Int := bcd2bin r3.1
  let r4 := ds1302_readbyte B RTC_ADDR_DATE r3.2
  let tm_mday : Int := bcd2bin r4.1
  let r5 := ds1302_readbyte B RTC_ADDR_MON r4.2
  let tm_mon : Int := (bcd2bin r5.1 : Int) - 1
  let r6 := ds1302_readbyte B RTC_ADDR_YEAR r5.2
  let tm_year0 : Int := bcd2bin r6.1
  let tm_year : Int := if tm_year0 < 70 then tm_year0 + 100 else tm_year0
  let tm : rtc_time :=
    { tm_sec := tm_sec, tm_min := tm_min, tm_hour := tm_hour, tm_mday := tm_mday,
      tm_mon := tm_mon, tm_year := tm_year, tm_wday := tm_wday }
  (rtc_valid_tm tm, tm, r6.2)

/-- The nine statements of `ds1302_rtc_set_time`, in source order: the halt
write, the seven field writes, the resume write.  `~0x80` is `0xFFFFFF7F` as an
`unsigned int`; `%` on `int` truncates toward zero. -/
def ds1302_rtc_set_time_stmts (tm : rtc_time) : List (σ → σ) :=
  [ fun s =>
      let r := ds1302_readbyte B RTC_ADDR_SEC s
      ds1302_writebyte B RTC_ADDR_SEC (r.1 ||| 0x80) r.2,
    fun s => ds1302_writebyte B RTC_ADDR_SEC (bin2bcd (to_unsigned tm.tm_sec)) s,
    fun s => ds1302_writebyte B RTC_ADDR_MIN (bin2bcd (to_unsigned tm.tm_min)) s,
    fun s => ds1302_writebyte B RTC_ADDR_HOUR (bin2bcd (to_unsigned tm.tm_hour)) s,
    fun s => ds1302_writebyte B RTC_ADDR_DAY (bin2bcd (to_unsigned tm.tm_wday)) s,
    fun s => ds1302_writebyte B RTC_ADDR_DATE (bin2bcd (to_unsigned tm.tm_mday)) s,
    fun s => ds1302_writebyte B RTC_ADDR_MON (bin2bcd (to_unsigned (tm.tm_mon + 1))) s,
    fun s =>
      ds1302_writebyte B RTC_ADDR_YEAR (bin2bcd (to_unsigned (Int.tmod tm.tm_year 100))) s,
    fun s =>
      let r := ds1302_readbyte B RTC_ADDR_SEC s
      ds1302_writebyte B RTC_ADDR_SEC (r.1 &&& 0xFFFFFF7F) r.2 ]

/-- Run a list of statements in order. -/
def run_stmts (l : List (σ → σ)) (s : σ) : σ :=
  l.foldl (fun acc f => f acc) s

/-- The backend state after the first `k` statements of
`ds1302_rtc_set_time`. -/
def set_time_after (k : Nat) (tm : rtc_time) (s : σ) : σ :=
  run_stmts ((ds1302_rtc_set_time_stmts B tm).take k) s

/-- `ds1302_rtc_set_time`: runs the nine statements and returns 0. -/
def ds1302_rtc_set_time (tm : rtc_time) (s : σ) : Int × σ :=
  (0, run_stmts (ds1302_rtc_set_time_stmts B tm) s)

end Codec

/-! ## Backend 1: a bus recorder -/

/-- One line operation as seen on the bus. -/
inductive LineOp where
  | direction_output (p : Pin) (v : Nat)
  | direction_input (p : Pin)
  | set_value (p : Pin) (v : Nat)
  | get_value (p : Pin)
  | udelay (n : Nat)
deriving DecidableEq, Repr

/-- State of the recorder: the operations so far, the levels the data line
will show (indexed by the number of the read) and the number of reads so
far. -/
structure Recorder where
  trace : List LineOp
  samples : Nat → Nat
  nreads : Nat

/-- The recording backend: every call is appended to the trace; a read returns
the next sample. -/
def recorder : LineBackend Recorder where
  gpio_direction_output p v s := { s with trace := s.trace ++ [LineOp.direction_output p v] }
  gpio_direction_input p s := { s with trace := s.trace ++ [LineOp.direction_input p] }
  gpio_set_value p v s := { s with trace := s.trace ++ [LineOp.set_value p v] }
  gpio_get_value p s :=
    (s.samples s.nreads,
      { s with trace := s.trace ++ [LineOp.get_value p], nreads := s.nreads + 1 })
  udelay n s := { s with trace := s.trace ++ [LineOp.udelay n] }

/-- One clock pulse on the bus: clock high, hold 1, clock low, hold 1. -/
def clock_pulse : List LineOp :=
  [LineOp.set_value Pin.sclk_pin 1, LineOp.udelay 1,
   LineOp.set_value Pin.sclk_pin 0, LineOp.udelay 1]

/-- Eight transmit slots carrying `v` least-significant bit first: the data
line is made an output, then bit `i` of `v` is driven and one clock pulse
follows, for `i = 0..7`. -/
def tx_slots (v : Nat) : List LineOp :=
  LineOp.direction_output Pin.io_pin 1 ::
    (List.range 8).flatMap
      (fun i => LineOp.set_value Pin.io_pin (v / 2 ^ i % 2) :: clock_pulse)

/-- Eight receive slots: the data line is made an input, then it is sampled
and one clock pulse follows, eight times. -/
def rx_slots : List LineOp :=
  LineOp.direction_input Pin.io_pin ::
    (List.range 8).flatMap (fun _ => LineOp.get_value Pin.io_pin :: clock_pulse)

/-- Start of every transaction: reset (chip-select low, clock low, data line
input), chip-select high, settle delay of 4. -/
def frame_head : List LineOp :=
  [LineOp.direction_output Pin.reset_pin 0, LineOp.direction_output Pin.sclk_pin 0,
   LineOp.direction_input Pin.io_pin, LineOp.set_value Pin.reset_pin 1, LineOp.udelay 4]

/-- The line operations of a write transaction with command byte `cmd`. -/
def write_frame (cmd value : Nat) : List LineOp :=
  frame_head ++ tx_slots cmd ++ tx_slots value ++ [LineOp.set_value Pin.reset_pin 0]

/-- The line operations of a read transaction with command byte `cmd`. -/
def read_frame (cmd : Nat) : List LineOp :=
  frame_head ++ tx_slots cmd ++ rx_slots ++ [LineOp.set_value Pin.reset_pin 0]

/-- The byte assembled from eight samples, sample `i` (a non-zero level counts
as 1) becoming bit `i`. -/
def assemble (samples : Nat → Nat) (first : Nat) : Nat :=
  ((List.range 8).map (fun i => (if samples (first + i) ≠ 0 then 1 else 0) * 2 ^ i)).sum

/-- Is the operation a change of the chip-select line? -/
def is_cs_op : LineOp → Bool
  | LineOp.set_value Pin.reset_pin _ => true
  | LineOp.direction_output Pin.reset_pin _ => true
  | LineOp.direction_input Pin.reset_pin => true
  | _ => false

/-- Is the operation a rising clock edge? -/
def is_clock_high : LineOp → Bool
  | LineOp.set_value Pin.sclk_pin v => v != 0
  | _ => false

/-! ## Backend 2: a clocked loopback -/

/-- State of the loopback: direction and driven level of the data line, and the
queue of levels captured from it. -/
structure Loopback where
  io_out : Bool
  level : Bool
  fifo : List Bool

/-- The loopback backend.  Each clock pulse with the data line as output
captures the level written to the data line (rising edge); with the data line
as input a read returns the oldest captured level and each clock pulse moves on
to the next one (falling edge).  Chip-select is ignored. -/
def loopback : LineBackend Loopback where
  gpio_direction_output p v s :=
    match p with
    | Pin.io_pin => { s with io_out := true, level := decide (v ≠ 0) }
    | _ => s
  gpio_direction_input p s :=
    match p with
    | Pin.io_pin => { s with io_out := false }
    | _ => s
  gpio_set_value p v s :=
    match p with
    | Pin.io_pin => { s with level := decide (v ≠ 0) }
    | Pin.sclk_pin =>
      if v ≠ 0 then
        (if s.io_out then { s with fifo := s.fifo ++ [s.level] } else s)
      else
        (if s.io_out then s else { s with fifo := s.fifo.tail })
    | Pin.reset_pin => s
  gpio_get_value p s :=
    match p with
    | Pin.io_pin =>
      ((if s.io_out then (if s.level then 1 else 0) else (if s.fifo.headD false then 1 else 0)), s)
    | _ => (0, s)
  udelay _ s := s

/-- The `n` low bits of `v` as levels, least-significant bit first. -/
def lsb_bits : Nat → Nat → List Bool
  | 0, _ => []
  | n + 1, v => decide (v % 2 ≠ 0) :: lsb_bits n (v / 2)

/-- A plain latch on the data line, for comparison: a read returns the level
last written, whatever the direction. -/
def latch : LineBackend Bool where
  gpio_direction_output p v s :=
    match p with
    | Pin.io_pin => decide (v ≠ 0)
    | _ => s
  gpio_direction_input _ s := s
  gpio_set_value p v s :=
    match p with
    | Pin.io_pin => decide (v ≠ 0)
    | _ => s
  gpio_get_value p s :=
    match p with
    | Pin.io_pin => ((if s then 1 else 0), s)
    | _ => (0, s)
  udelay _ s := s

/-! ## Backend 3: a simulated chip -/

/-- State of the simulated chip: the register file (by 6-bit register
address), the levels of chip-select and clock, direction and level of the data
line as driven by the host, the number of clock pulses seen in the current
transaction, and the command and data shift registers. -/
structure Chip where
  regs : Nat → Nat
  ce : Bool
  sclk : Bool
  io_out : Bool
  io_val : Bool
  nbits : Nat
  cmd : Nat
  data : Nat

/-- The level the host drives on the data line (0 when it is an input). -/
def Chip.host_bit (c : Chip) : Nat :=
  if c.io_out && c.io_val then 1 else 0

/-- The register address selected by the command byte. -/
def Chip.addr (c : Chip) : Nat :=
  c.cmd / 2 % 64

/-- Rising clock edge.  With chip-select high, the first eight edges shift the
data line into the command byte, least-significant bit first.  For a write
command (bit 0 clear) the next eight edges shift the data line into the data
byte, and the eighth stores it under the command address.  For a read command
the edges only count. -/
def Chip.rising (c : Chip) : Chip :=
  if !c.ce then c
  else if c.nbits < 8 then
    { c with cmd := c.cmd + c.host_bit * 2 ^ c.nbits, nbits := c.nbits + 1 }
  else if c.nbits < 16 then
    if c.cmd % 2 = 0 then
      let d := c.data + c.host_bit * 2 ^ (c.nbits - 8)
      if c.nbits = 15 then
        { c with regs := Function.update c.regs c.addr d, data := d, nbits := 16 }
      else
        { c with data := d, nbits := c.nbits + 1 }
    else
      { c with nbits := c.nbits + 1 }
  else c

/-- A level change on chip-select: going high starts a transaction (counters
and shift registers cleared), going low ends it. -/
def Chip.set_ce (c : Chip) (v : Nat) : Chip :=
  if v ≠ 0 then
    (if c.ce then c else { c with ce := true, nbits := 0, cmd := 0, data := 0 })
  else
    { c with ce := false }

/-- A level change on the clock line. -/
def Chip.set_sclk (c : Chip) (v : Nat) : Chip :=
  if v ≠ 0 then
    (if c.sclk then c else Chip.rising { c with sclk := true })
  else
    { c with sclk := false }

/-- The level of the data line.  When the host drives it, that level.
Otherwise, during the data phase of a read command, bit `nbits - 8` of the
addressed register; else 0. -/
def Chip.io_level (c : Chip) : Nat :=
  if c.io_out then (if c.io_val then 1 else 0)
  else if c.ce && decide (8 ≤ c.nbits) && decide (c.nbits < 16) && decide (c.cmd % 2 = 1) then
    c.regs c.addr / 2 ^ (c.nbits - 8) % 2
  else 0

/-- The simulated chip as a line backend: it stores the byte of every write
transaction under its register address and returns it on a read transaction of
that address. -/
def chip : LineBackend Chip where
  gpio_direction_output p v c :=
    match p with
    | Pin.reset_pin => c.set_ce v
    | Pin.sclk_pin => c.set_sclk v
    | Pin.io_pin => { c with io_out := true, io_val := decide (v ≠ 0) }
  gpio_direction_input p c :=
    match p with
    | Pin.io_pin => { c with io_out := false }
    | _ => c
  gpio_set_value p v c :=
    match p with
    | Pin.reset_pin => c.set_ce v
    | Pin.sclk_pin => c.set_sclk v
    | Pin.io_pin => { c with io_val := decide (v ≠ 0) }
  gpio_get_value p c :=
    match p with
    | Pin.reset_pin => ((if c.ce then 1 else 0), c)
    | Pin.sclk_pin => ((if c.sclk then 1 else 0), c)
    | Pin.io_pin => (c.io_level, c)
  udelay _ c := c

/-- A chip whose registers hold `regs`, with idle lines. -/
def Chip.idle (regs : Nat → Nat) : Chip :=
  { regs := regs, ce := false, sclk := false, io_out := false, io_val := false,
    nbits := 0, cmd := 0, data := 0 }

/-! ## Properties named by the specification -/

/-- The fields are a well-formed calendar date: month in 0..11, day of month
in 1..days of that month and year, hours below 24, minutes and seconds below
60. -/
def well_formed (tm : rtc_time) : Prop :=
  0 ≤ tm.tm_mon ∧ tm.tm_mon ≤ 11
    ∧ 1 ≤ tm.tm_mday ∧ tm.tm_mday ≤ rtc_month_days tm.tm_mon (tm.tm_year + 1900)
    ∧ 0 ≤ tm.tm_hour ∧ tm.tm_hour < 24
    ∧ 0 ≤ tm.tm_min ∧ tm.tm_min < 60
    ∧ 0 ≤ tm.tm_sec ∧ tm.tm_sec < 60

instance (tm : rtc_time) : Decidable (well_formed tm) := by
  unfold well_formed
  infer_instance

/-- The calendar times of the round trip: a well-formed date with day of week
in 0..6 and calendar year 1970..2069 (`tm_year` 70..169). -/
def round_trip_time (tm : rtc_time) : Prop :=
  well_formed tm ∧ 0 ≤ tm.tm_wday ∧ tm.tm_wday ≤ 6 ∧ 70 ≤ tm.tm_year ∧ tm.tm_year ≤ 169

instance (tm : rtc_time) : Decidable (round_trip_time tm) := by
  unfold round_trip_time
  infer_instance

/-- The calendar fields decoded from a register file: each register
BCD-decoded, the month reduced by one, the century rule applied to the year. -/
def decoded (regs : Nat → Nat) : rtc_time :=
  { tm_sec := bcd2bin (regs RTC_ADDR_SEC),
    tm_min := bcd2bin (regs RTC_ADDR_MIN),
    tm_hour := bcd2bin (regs RTC_ADDR_HOUR),
    tm_mday := bcd2bin (regs RTC_ADDR_DATE),
    tm_mon := (bcd2bin (regs RTC_ADDR_MON) : Int) - 1,
    tm_year :=
      if bcd2bin (regs RTC_ADDR_YEAR) < 70 then (bcd2bin (regs RTC_ADDR_YEAR) : Int) + 100
      else bcd2bin (regs RTC_ADDR_YEAR),
    tm_wday := bcd2bin (regs RTC_ADDR_DAY) }

/-- The time of the concrete scenario: 14:30:45 on 12 June 2024 (a
Wednesday). -/
def scenario_time : rtc_time :=
  { tm_sec := 45, tm_min := 30, tm_hour := 14, tm_mday := 12, tm_mon := 5,
    tm_year := 124, tm_wday := 3 }


/-! ## Arithmetic of bits -/

theorem read_command_eq (addr : Nat) : read_command addr = 0x81 + 2 * (addr % 64) := by
  have h : ∀ m, m < 64 → ((m <<< 1) ||| 0x81) = 0x81 + 2 * m := by decide
  have e : addr &&& 0x3f = addr % 64 := Nat.and_pow_two_sub_one_eq_mod addr 6
  unfold read_command RTC_CMD_READ
  rw [e]
  exact h _ (Nat.mod_lt _ (by norm_num))

theorem write_command_eq (addr : Nat) : write_command addr = 0x80 + 2 * (addr % 64) := by
  have h : ∀ m, m < 64 → ((m <<< 1) ||| 0x80) = 0x80 + 2 * m := by decide
  have e : addr &&& 0x3f = addr % 64 := Nat.and_pow_two_sub_one_eq_mod addr 6
  unfold write_command RTC_CMD_WRITE
  rw [e]
  exact h _ (Nat.mod_lt _ (by norm_num))

theorem bit_split (x n k : Nat) :
    (x % 2) * 2 ^ k + ((x / 2) % 2 ^ n) * 2 ^ (k + 1) = (x % 2 ^ (n + 1)) * 2 ^ k := by
  rw [pow_succ, pow_succ, Nat.mul_comm (2 ^ n) 2, Nat.mod_mul]
  ring

theorem or_shift_eq_add (val b i : Nat) (h : val < 2 ^ i) :
    val ||| (b <<< i) = val + b * 2 ^ i := by
  rw [Nat.or_comm, Nat.shiftLeft_eq, Nat.mul_comm b, ← Nat.mul_add_lt_is_or h]
  ring

theorem bcd_round_trip_lt (m : Nat) (h : m < 100) : bcd2bin (bin2bcd m) = m := by
  have key : ∀ k, k < 100 → bcd2bin (bin2bcd k) = k := by decide
  exact key m h

/-! ## The simulated chip under the driver's loops -/

theorem chip_tx_step_command (v : Nat) (regs : Nat → Nat) (iov : Bool) (k cmd data : Nat)
    (hk : k < 8) :
    ds1302_clock chip (ds1302_txbit chip (v &&& 0x1) ⟨regs, true, false, true, iov, k, cmd, data⟩)
      = ⟨regs, true, false, true, decide (v % 2 ≠ 0), k + 1, cmd + (v % 2) * 2 ^ k, data⟩ := by
  rcases Nat.mod_two_eq_zero_or_one v with h | h <;>
    simp [ds1302_clock, ds1302_txbit, chip, Chip.set_sclk, Chip.rising, Chip.host_bit, hk, h]

theorem chip_tx_step_data (v : Nat) (regs : Nat → Nat) (iov : Bool) (k cmd data : Nat)
    (hk : k < 7) (hc : cmd % 2 = 0) :
    ds1302_clock chip
        (ds1302_txbit chip (v &&& 0x1) ⟨regs, true, false, true, iov, 8 + k, cmd, data⟩)
      = ⟨regs, true, false, true, decide (v % 2 ≠ 0), 8 + (k + 1), cmd,
          data + (v % 2) * 2 ^ k⟩ := by
  have h1 : ¬ (8 + k < 8) := by omega
  have h2 : 8 + k < 16 := by omega
  have h3 : ¬ (8 + k = 15) := by omega
  have h4 : ¬ (k = 7) := by omega
  rcases Nat.mod_two_eq_zero_or_one v with h | h <;>
    simp [ds1302_clock, ds1302_txbit, chip, Chip.set_sclk, Chip.rising, Chip.host_bit,
      h1, h2, h3, h4, hc, h, Nat.add_assoc]

theorem chip_tx_step_last (v : Nat) (regs : Nat → Nat) (iov : Bool) (cmd data : Nat)
    (hc : cmd % 2 = 0) :
    ds1302_clock chip
        (ds1302_txbit chip (v &&& 0x1) ⟨regs, true, false, true, iov, 15, cmd, data⟩)
      = ⟨Function.update regs (cmd / 2 % 64) (data + (v % 2) * 2 ^ 7), true, false, true,
          decide (v % 2 ≠ 0), 16, cmd, data + (v % 2) * 2 ^ 7⟩ := by
  rcases Nat.mod_two_eq_zero_or_one v with h | h <;>
    simp [ds1302_clock, ds1302_txbit, chip, Chip.set_sclk, Chip.rising, Chip.host_bit,
      Chip.addr, hc, h]

theorem chip_rx_step (regs : Nat → Nat) (iov : Bool) (i cmd data : Nat)
    (hi : i < 8) (hc : cmd % 2 = 1) :
    ds1302_rxbit chip ⟨regs, true, false, false, iov, 8 + i, cmd, data⟩
      = (regs (cmd / 2 % 64) / 2 ^ i % 2, ⟨regs, true, false, false, iov, 8 + i, cmd, data⟩)
    ∧ ds1302_clock chip ⟨regs, true, false, false, iov, 8 + i, cmd, data⟩
      = ⟨regs, true, false, false, iov, 8 + (i + 1), cmd, data⟩ := by
  have h1 : ¬ (8 + i < 8) := by omega
  have h2 : 8 + i < 16 := by omega
  constructor
  · rcases Nat.mod_two_eq_zero_or_one (regs (cmd / 2 % 64) / 2 ^ i) with h | h <;>
      simp [ds1302_rxbit, chip, Chip.io_level, Chip.addr, h2, hc, h]
  · simp [ds1302_clock, chip, Chip.set_sclk, Chip.rising, h1, h2, hc, Nat.add_assoc]

theorem chip_send_command (n : Nat) :
    ∀ (v : Nat) (regs : Nat → Nat) (iov : Bool) (k cmd data : Nat), k + n ≤ 8 →
      ∃ iov1, sendbits_loop chip n v ⟨regs, true, false, true, iov, k, cmd, data⟩
        = ⟨regs, true, false, true, iov1, k + n, cmd + (v % 2 ^ n) * 2 ^ k, data⟩ := by
  induction n with
  | zero =>
    intro v regs iov k cmd data _
    exact ⟨iov, by simp [sendbits_loop, Nat.mod_one]⟩
  | succ n ih =>
    intro v regs iov k cmd data h
    obtain ⟨iov1, e⟩ :=
      ih (v / 2) regs (decide (v % 2 ≠ 0)) (k + 1) (cmd + (v % 2) * 2 ^ k) data (by omega)
    refine ⟨iov1, ?_⟩
    have e1 : k + 1 + n = k + (n + 1) := by omega
    rw [sendbits_loop, chip_tx_step_command v regs iov k cmd data (by omega),
      Nat.shiftRight_one, e, Nat.add_assoc cmd, bit_split, e1]

theorem chip_send_data (n : Nat) :
    ∀ (v : Nat) (regs : Nat → Nat) (iov : Bool) (k cmd data : Nat), k + (n + 1) = 8 →
      cmd % 2 = 0 →
      ∃ iov1, sendbits_loop chip (n + 1) v ⟨regs, true, false, true, iov, 8 + k, cmd, data⟩
        = ⟨Function.update regs (cmd / 2 % 64) (data + (v % 2 ^ (n + 1)) * 2 ^ k),
            true, false, true, iov1, 16, cmd, data + (v % 2 ^ (n + 1)) * 2 ^ k⟩ := by
  induction n with
  | zero =>
    intro v regs iov k cmd data h hc
    have hk : k = 7 := by omega
    subst hk
    refine ⟨decide (v % 2 ≠ 0), ?_⟩
    rw [sendbits_loop, chip_tx_step_last v regs iov cmd data hc]
    simp [sendbits_loop]
  | succ n ih =>
    intro v regs iov k cmd data h hc
    obtain ⟨iov1, e⟩ :=
      ih (v / 2) regs (decide (v % 2 ≠ 0)) (k + 1) cmd (data + (v % 2) * 2 ^ k) (by omega) hc
    refine ⟨iov1, ?_⟩
    rw [sendbits_loop, chip_tx_step_data v regs iov k cmd data (by omega) hc,
      Nat.shiftRight_one, e, Nat.add_assoc data, bit_split]

theorem chip_recv (n : Nat) :
    ∀ (i val : Nat) (regs : Nat → Nat) (iov : Bool) (cmd data : Nat), i + n ≤ 8 →
      cmd % 2 = 1 → val < 2 ^ i →
      recvbits_loop chip n i val ⟨regs, true, false, false, iov, 8 + i, cmd, data⟩
        = (val + (regs (cmd / 2 % 64) / 2 ^ i % 2 ^ n) * 2 ^ i,
            ⟨regs, true, false, false, iov, 8 + (i + n), cmd, data⟩) := by
  induction n with
  | zero =>
    intro i val regs iov cmd data _ _ _
    simp [recvbits_loop, Nat.mod_one]
  | succ n ih =>
    intro i val regs iov cmd data h hc hv
    obtain ⟨e1, e2⟩ := chip_rx_step regs iov i cmd data (by omega) hc
    have hb : regs (cmd / 2 % 64) / 2 ^ i % 2 < 2 := Nat.mod_lt _ (by norm_num)
    have hv1 : val + (regs (cmd / 2 % 64) / 2 ^ i % 2) * 2 ^ i < 2 ^ (i + 1) := by
      rw [pow_succ]
      nlinarith [Nat.two_pow_pos i]
    have hd : regs (cmd / 2 % 64) / 2 ^ (i + 1) = regs (cmd / 2 % 64) / 2 ^ i / 2 := by
      rw [pow_succ, Nat.div_div_eq_div_mul]
    have e3 : i + 1 + n = i + (n + 1) := by omega
    rw [recvbits_loop, e1]
    simp only []
    rw [e2, or_shift_eq_add _ _ _ hv, ih (i + 1) _ regs iov cmd data (by omega) hc hv1,
      hd, Nat.add_assoc val, bit_split, e3]

theorem chip_transaction_start (c : Chip) :
    ds1302_set_tx chip (chip.udelay 4 (ds1302_start chip (ds1302_reset chip c)))
      = ⟨c.regs, true, false, true, true, 0, 0, 0⟩ := by
  simp [ds1302_set_tx, ds1302_start, ds1302_reset, chip, Chip.set_ce, Chip.set_sclk]

theorem chip_readbyte (addr : Nat) (c : Chip) :
    ∃ iov, ds1302_readbyte chip addr c
      = (c.regs (addr % 64) % 256,
          ⟨c.regs, false, false, false, iov, 16, 0x81 + 2 * (addr % 64), 0⟩) := by
  have hlt : 0x81 + 2 * (addr % 64) < 256 := by omega
  obtain ⟨iov, e⟩ := chip_send_command 8 (read_command addr) c.regs true 0 0 0 (by norm_num)
  refine ⟨iov, ?_⟩
  have hc : (0x81 + 2 * (addr % 64)) % 2 = 1 := by omega
  have ha : (0x81 + 2 * (addr % 64)) / 2 % 64 = addr % 64 := by omega
  have hr := chip_recv 8 0 0 c.regs iov (0x81 + 2 * (addr % 64)) 0 (by norm_num) hc (by norm_num)
  rw [ha] at hr
  simp only [ds1302_readbyte, ds1302_sendbits, ds1302_recvbits, chip_transaction_start, e]
  rw [read_command_eq]
  simp only [Nat.zero_add, pow_zero, Nat.mul_one, Nat.reducePow, Nat.mod_eq_of_lt hlt]
  have hrx : ds1302_set_rx chip
        ⟨c.regs, true, false, true, iov, 8, 0x81 + 2 * (addr % 64), 0⟩
      = ⟨c.regs, true, false, false, iov, 8 + 0, 0x81 + 2 * (addr % 64), 0⟩ := by
    simp [ds1302_set_rx, chip]
  rw [hrx, hr]
  simp [ds1302_stop, chip, Chip.set_ce]

theorem chip_writebyte (addr val : Nat) (c : Chip) :
    ∃ iov, ds1302_writebyte chip addr val c
      = ⟨Function.update c.regs (addr % 64) (val % 256), false, false, true, iov, 16,
          0x80 + 2 * (addr % 64), val % 256⟩ := by
  have hlt : 0x80 + 2 * (addr % 64) < 256 := by omega
  obtain ⟨iov, e⟩ := chip_send_command 8 (write_command addr) c.regs true 0 0 0 (by norm_num)
  have hc : (0x80 + 2 * (addr % 64)) % 2 = 0 := by omega
  have ha : (0x80 + 2 * (addr % 64)) / 2 % 64 = addr % 64 := by omega
  obtain ⟨iov1, e1⟩ :=
    chip_send_data 7 val c.regs true 0 (0x80 + 2 * (addr % 64)) 0 (by norm_num) hc
  refine ⟨iov1, ?_⟩
  rw [ha] at e1
  simp only [ds1302_writebyte, ds1302_sendbits, chip_transaction_start, e]
  rw [write_command_eq]
  simp only [Nat.zero_add, pow_zero, Nat.mul_one, Nat.reducePow, Nat.mod_eq_of_lt hlt]
  have htx : ds1302_set_tx chip
        ⟨c.regs, true, false, true, iov, 8, 0x80 + 2 * (addr % 64), 0⟩
      = ⟨c.regs, true, false, true, true, 8 + 0, 0x80 + 2 * (addr % 64), 0⟩ := by
    simp [ds1302_set_tx, chip]
  rw [htx, e1]
  simp [ds1302_stop, chip, Chip.set_ce]

theorem chip_readbyte_val (addr : Nat) (c : Chip) :
    (ds1302_readbyte chip addr c).1 = c.regs (addr % 64) % 256 := by
  obtain ⟨iov, e⟩ := chip_readbyte addr c
  rw [e]

theorem chip_readbyte_regs (addr : Nat) (c : Chip) :
    (ds1302_readbyte chip addr c).2.regs = c.regs := by
  obtain ⟨iov, e⟩ := chip_readbyte addr c
  rw [e]

theorem chip_writebyte_regs (addr val : Nat) (c : Chip) :
    (ds1302_writebyte chip addr val c).regs = Function.update c.regs (addr % 64) (val % 256) := by
  obtain ⟨iov, e⟩ := chip_writebyte addr val c
  rw [e]

/-! ## The time codec on the simulated chip -/

theorem bcd2bin_mod (x : Nat) : bcd2bin (x % 256) = bcd2bin x := by
  simp [bcd2bin]

theorem chip_read_time (c : Chip) :
    (ds1302_rtc_read_time chip c).1 = rtc_valid_tm (decoded c.regs)
    ∧ (ds1302_rtc_read_time chip c).2.1 = decoded c.regs
    ∧ (ds1302_rtc_read_time chip c).2.2.regs = c.regs := by
  simp [ds1302_rtc_read_time, decoded, chip_readbyte_val, chip_readbyte_regs, bcd2bin_mod,
    RTC_ADDR_SEC, RTC_ADDR_MIN, RTC_ADDR_HOUR, RTC_ADDR_DAY, RTC_ADDR_DATE, RTC_ADDR_MON,
    RTC_ADDR_YEAR]

theorem decoded_year_ge (regs : Nat → Nat) : 70 ≤ (decoded regs).tm_year := by
  simp only [decoded]
  split_ifs <;> omega

theorem rtc_valid_tm_eq (tm : rtc_time) (hy : 70 ≤ tm.tm_year) :
    rtc_valid_tm tm = if well_formed tm then 0 else -EINVAL := by
  unfold rtc_valid_tm well_formed
  split_ifs with h1 h2 h2
  · omega
  · rfl
  · rfl
  · omega

theorem to_unsigned_natCast (n : Nat) (h : n < 4294967296) : to_unsigned (n : Int) = n := by
  unfold to_unsigned
  omega

set_option maxRecDepth 100000 in
theorem resume_mask : ∀ x, x < 256 → (x &&& 0xFFFFFF7F) % 256 = x % 128 := by
  decide

theorem bin2bcd_lt (x : Nat) : bin2bcd x < 256 := by
  unfold bin2bcd
  exact Nat.mod_lt _ (by norm_num)

theorem chip_set_time_regs (tm : rtc_time) (c : Chip) :
    (ds1302_rtc_set_time chip tm c).1 = 0
    ∧ (ds1302_rtc_set_time chip tm c).2.regs RTC_ADDR_SEC
        = bin2bcd (to_unsigned tm.tm_sec) % 128
    ∧ (ds1302_rtc_set_time chip tm c).2.regs RTC_ADDR_MIN = bin2bcd (to_unsigned tm.tm_min)
    ∧ (ds1302_rtc_set_time chip tm c).2.regs RTC_ADDR_HOUR = bin2bcd (to_unsigned tm.tm_hour)
    ∧ (ds1302_rtc_set_time chip tm c).2.regs RTC_ADDR_DAY = bin2bcd (to_unsigned tm.tm_wday)
    ∧ (ds1302_rtc_set_time chip tm c).2.regs RTC_ADDR_DATE = bin2bcd (to_unsigned tm.tm_mday)
    ∧ (ds1302_rtc_set_time chip tm c).2.regs RTC_ADDR_MON
        = bin2bcd (to_unsigned (tm.tm_mon + 1))
    ∧ (ds1302_rtc_set_time chip tm c).2.regs RTC_ADDR_YEAR
        = bin2bcd (to_unsigned (Int.tmod tm.tm_year 100)) := by
  simp only [ds1302_rtc_set_time, run_stmts, ds1302_rtc_set_time_stmts, List.foldl,
    chip_writebyte_regs, chip_readbyte_regs, chip_readbyte_val]
  simp [Function.update, RTC_ADDR_SEC, RTC_ADDR_MIN, RTC_ADDR_HOUR, RTC_ADDR_DAY,
    RTC_ADDR_DATE, RTC_ADDR_MON, RTC_ADDR_YEAR, Nat.mod_eq_of_lt (bin2bcd_lt _)]
  exact resume_mask _ (bin2bcd_lt _)

theorem bcd_round_trip_sec (m : Nat) (h : m < 60) : bcd2bin (bin2bcd m % 128) = m := by
  have key : ∀ k, k < 60 → bcd2bin (bin2bcd k % 128) = k := by decide
  exact key m h

theorem rtc_month_days_le (m : Nat) (y : Int) (h : m ≤ 11) : rtc_month_days (m : Int) y ≤ 31 := by
  unfold rtc_month_days
  interval_cases m
  all_goals simp
  all_goals split_ifs <;> simp

theorem decoded_set_time (t : rtc_time) (c : Chip) (h : round_trip_time t) :
    decoded (ds1302_rtc_set_time chip t c).2.regs = t := by
  obtain ⟨_, h0, h1, h2, h3, h4, h5, h6⟩ := chip_set_time_regs t c
  obtain ⟨sec, min, hour, mday, mon, year, wday⟩ := t
  simp only [round_trip_time, well_formed] at h
  obtain ⟨⟨m0, m1, d0, d1, hh0, hh1, mi0, mi1, s0, s1⟩, w0, w1, y0, y1⟩ := h
  lift sec to ℕ using s0
  lift min to ℕ using mi0
  lift hour to ℕ using hh0
  lift mday to ℕ using (by omega)
  lift mon to ℕ using m0
  lift year to ℕ using (by omega)
  lift wday to ℕ using w0
  have d2 := rtc_month_days_le mon ((year : Int) + 1900) (by omega)
  have e0 : to_unsigned ((sec : ℕ) : Int) = sec := to_unsigned_natCast _ (by omega)
  have e1 : to_unsigned ((min : ℕ) : Int) = min := to_unsigned_natCast _ (by omega)
  have e2 : to_unsigned ((hour : ℕ) : Int) = hour := to_unsigned_natCast _ (by omega)
  have e3 : to_unsigned ((wday : ℕ) : Int) = wday := to_unsigned_natCast _ (by omega)
  have e4 : to_unsigned ((mday : ℕ) : Int) = mday := to_unsigned_natCast _ (by omega)
  have e5 : to_unsigned ((mon : ℕ) + 1 : Int) = mon + 1 := by
    have := to_unsigned_natCast (mon + 1) (by omega)
    simpa using this
  have e6 : to_unsigned (Int.tmod (year : ℕ) 100) = year % 100 := by
    rw [Int.tmod_eq_emod (by omega) (by norm_num)]
    have := to_unsigned_natCast (year % 100) (by omega)
    simpa using this
  simp only [e0, e1, e2, e3, e4, e5, e6] at h0 h1 h2 h3 h4 h5 h6
  simp only [decoded, h0, h1, h2, h3, h4, h5, h6]
  rw [bcd_round_trip_sec sec (by omega), bcd_round_trip_lt min (by omega),
    bcd_round_trip_lt hour (by omega), bcd_round_trip_lt mday (by omega),
    bcd_round_trip_lt (mon + 1) (by omega), bcd_round_trip_lt (year % 100) (by omega),
    bcd_round_trip_lt wday (by omega)]
  have ey : (if year % 100 < 70 then ((year % 100 : ℕ) : Int) + 100 else ((year % 100 : ℕ) : Int))
      = (year : Int) := by
    split_ifs <;> omega
  rw [ey]
  simp

/-- C1 (time round trip).  On the simulated chip, for every calendar time `t`
with seconds 0..59, minutes 0..59, hours 0..23, day of week 0..6, month 0..11,
day of month valid for that month and year and `tm_year` 70..169,
`ds1302_rtc_set_time` returns 0 and a following `ds1302_rtc_read_time` returns
0 with every field equal to the field of `t` (the month is returned
unchanged). -/
theorem time_round_trip (t : rtc_time) (c : Chip) (h : round_trip_time t) :
    (ds1302_rtc_set_time chip t c).1 = 0
    ∧ (ds1302_rtc_read_time chip (ds1302_rtc_set_time chip t c).2).1 = 0
    ∧ (ds1302_rtc_read_time chip (ds1302_rtc_set_time chip t c).2).2.1 = t := by
  obtain ⟨r1, r2, _⟩ := chip_read_time (ds1302_rtc_set_time chip t c).2
  have hd := decoded_set_time t c h
  rw [r1, r2, hd]
  refine ⟨rfl, ?_, rfl⟩
  rw [rtc_valid_tm_eq t h.2.2.2.1, if_pos h.1]

/-- Witness of C1: the concrete scenario.  Seconds 45, minutes 30, hours 14,
date 12, external month 5, year 2024 (`tm_year` 124) reads back as
(45, 30, 14, 12, 5, 2024). -/
theorem time_round_trip_witness :
    round_trip_time scenario_time
    ∧ ((ds1302_rtc_set_time chip scenario_time (Chip.idle (fun _ => 0))).1 = 0
      ∧ (ds1302_rtc_read_time chip
          (ds1302_rtc_set_time chip scenario_time (Chip.idle (fun _ => 0))).2).1 = 0
      ∧ (ds1302_rtc_read_time chip
          (ds1302_rtc_set_time chip scenario_time (Chip.idle (fun _ => 0))).2).2.1
        = { tm_sec := 45, tm_min := 30, tm_hour := 14, tm_mday := 12, tm_mon := 5,
            tm_year := 2024 - 1900, tm_wday := 3 }) :=
  ⟨by decide, time_round_trip scenario_time (Chip.idle (fun _ => 0)) (by decide)⟩

/-- C3 (register round trip).  On the simulated chip, for every register
address (0x00..0x06, 0x08 and 0x20 of the register map among them) and every
value in 0..255, `ds1302_readbyte(addr)` called after
`ds1302_writebyte(addr, value)` returns exactly `value`. -/
theorem register_round_trip (addr value : Nat) (c : Chip) (hv : value < 256) :
    (ds1302_readbyte chip addr (ds1302_writebyte chip addr value c)).1 = value := by
  rw [chip_readbyte_val, chip_writebyte_regs, Function.update_same, Nat.mod_mod,
    Nat.mod_eq_of_lt hv]

/-- Witness of C3: the self-test byte 0x42 written to RAM0 reads back. -/
theorem register_round_trip_witness :
    (0x42 : Nat) < 256
    ∧ (ds1302_readbyte chip RTC_ADDR_RAM0
        (ds1302_writebyte chip RTC_ADDR_RAM0 0x42 (Chip.idle (fun _ => 0)))).1 = 0x42 :=
  ⟨by decide, register_round_trip RTC_ADDR_RAM0 0x42 (Chip.idle (fun _ => 0)) (by decide)⟩

/-- C5 (century rule).  Whatever the chip holds, when the year register
decodes to the wire-year `y`, `ds1302_rtc_read_time` yields `tm_year = y` if
`y >= 70` and `tm_year = y + 100` if `y < 70`, that is calendar year
`1900 + y` if `y >= 70` and `2000 + y` otherwise. -/
theorem century_rule (c : Chip) (y : Nat) (hy : bcd2bin (c.regs RTC_ADDR_YEAR) = y) :
    (ds1302_rtc_read_time chip c).2.1.tm_year = (if 70 ≤ y then (y : Int) else (y : Int) + 100)
    ∧ 1900 + (ds1302_rtc_read_time chip c).2.1.tm_year
        = (if 70 ≤ y then 1900 + (y : Int) else 2000 + (y : Int)) := by
  obtain ⟨_, r2, _⟩ := chip_read_time c
  rw [r2]
  simp only [decoded, hy]
  split_ifs <;> omega

/-- Witness of C5: wire-year 23 gives calendar year 2023 and wire-year 99 gives
1999. -/
theorem century_rule_witness :
    (bcd2bin ((Chip.idle (fun _ => 0x23)).regs RTC_ADDR_YEAR) = 23
      ∧ 1900 + (ds1302_rtc_read_time chip (Chip.idle (fun _ => 0x23))).2.1.tm_year = 2023)
    ∧ (bcd2bin ((Chip.idle (fun _ => 0x99)).regs RTC_ADDR_YEAR) = 99
      ∧ 1900 + (ds1302_rtc_read_time chip (Chip.idle (fun _ => 0x99))).2.1.tm_year = 1999) :=
  ⟨⟨by decide, (century_rule (Chip.idle (fun _ => 0x23)) 23 (by decide)).2⟩,
    ⟨by decide, (century_rule (Chip.idle (fun _ => 0x99)) 99 (by decide)).2⟩⟩

/-- C6 (BCD round trip).  For every `v` (0..255 included), decoding the BCD
encoding of `v mod 100` gives back `v mod 100`. -/
theorem bcd_round_trip (v : Nat) : bcd2bin (bin2bcd (v % 100)) = v % 100 :=
  bcd_round_trip_lt (v % 100) (Nat.mod_lt _ (by norm_num))

/-- C7 (command byte encoding).  For every `addr`, the command byte the chip
receives from `ds1302_readbyte(addr)` is `0x81 + 2*(addr mod 64)` and the one
it receives from `ds1302_writebyte(addr, _)` is `0x80 + 2*(addr mod 64)`; the
byte lies in 0x80..0xFF, bit 0 is 1 for a read and 0 for a write, and two
distinct addresses in 0..0x3F give distinct command bytes. -/
theorem command_byte_encoding (addr value : Nat) (c : Chip) (a b : Nat)
    (ha : a ≤ 0x3f) (hb : b ≤ 0x3f) (hab : a ≠ b) :
    (ds1302_readbyte chip addr c).2.cmd = 0x81 + 2 * (addr % 64)
    ∧ (ds1302_writebyte chip addr value c).cmd = 0x80 + 2 * (addr % 64)
    ∧ read_command addr = 0x81 + 2 * (addr % 64)
    ∧ write_command addr = 0x80 + 2 * (addr % 64)
    ∧ (0x80 ≤ read_command addr ∧ read_command addr ≤ 0xFF)
    ∧ (0x80 ≤ write_command addr ∧ write_command addr ≤ 0xFF)
    ∧ read_command addr % 2 = 1
    ∧ write_command addr % 2 = 0
    ∧ read_command a ≠ read_command b
    ∧ write_command a ≠ write_command b := by
  obtain ⟨i1, e1⟩ := chip_readbyte addr c
  obtain ⟨i2, e2⟩ := chip_writebyte addr value c
  rw [e1, e2]
  simp only [read_command_eq, write_command_eq]
  have ea : a % 64 = a := Nat.mod_eq_of_lt (by omega)
  have eb : b % 64 = b := Nat.mod_eq_of_lt (by omega)
  rw [ea, eb]
  refine ⟨trivial, trivial, trivial, trivial, ⟨?_, ?_⟩, ⟨?_, ?_⟩, ?_, ?_, ?_, ?_⟩ <;> omega

/-- Witness of C7: the date register (0x03) gives the command bytes 0x87 and
0x86; the seconds (0x00) and minutes (0x01) registers give distinct bytes. -/
theorem command_byte_encoding_witness :
    (ds1302_readbyte chip RTC_ADDR_DATE (Chip.idle (fun _ => 0))).2.cmd = 0x87
    ∧ (ds1302_writebyte chip RTC_ADDR_DATE 0 (Chip.idle (fun _ => 0))).cmd = 0x86
    ∧ read_command RTC_ADDR_SEC ≠ read_command RTC_ADDR_MIN := by
  have h := command_byte_encoding RTC_ADDR_DATE 0 (Chip.idle (fun _ => 0))
    RTC_ADDR_SEC RTC_ADDR_MIN (by decide) (by decide) (by decide)
  exact ⟨h.1, h.2.1, h.2.2.2.2.2.2.2.2.1⟩

/-- C8 (invalid time is reported).  For every content of the chip registers,
`ds1302_rtc_read_time` fills `tm` with the decoded fields and returns 0 when
they are a well-formed calendar date and `-EINVAL` when they are not (month
outside 0..11, day of month outside 1..days of that month and year, hours
>= 24, minutes >= 60 or seconds >= 60). -/
theorem read_time_validates (c : Chip) :
    (ds1302_rtc_read_time chip c).2.1 = decoded c.regs
    ∧ (ds1302_rtc_read_time chip c).1
        = (if well_formed (ds1302_rtc_read_time chip c).2.1 then 0 else -EINVAL) := by
  obtain ⟨r1, r2, _⟩ := chip_read_time c
  rw [r1, r2]
  exact ⟨rfl, rtc_valid_tm_eq _ (decoded_year_ge _)⟩

theorem halt_bit_set (x : Nat) (h : x &&& 0x80 ≠ 0) : 128 ≤ x % 256 := by
  have hb : x.testBit 7 = true := by
    by_contra hc
    apply h
    apply Nat.eq_of_testBit_eq
    intro i
    rw [Nat.testBit_and, show (0x80 : Nat) = 2 ^ 7 from rfl, Nat.testBit_two_pow]
    by_cases hi : 7 = i
    · subst hi
      simpa using hc
    · simp [hi]
  rw [Nat.testBit_to_div_mod] at hb
  have hb1 : x / 2 ^ 7 % 2 = 1 := of_decide_eq_true hb
  omega

set_option maxRecDepth 100000 in
theorem bcd2bin_halted (x : Nat) (h : 128 ≤ x % 256) : 80 ≤ bcd2bin x := by
  have key : ∀ v, v < 256 → 128 ≤ v → 80 ≤ bcd2bin v := by decide
  rw [← bcd2bin_mod]
  exact key _ (Nat.mod_lt _ (by norm_num)) h

/-- C10 (the clock-halt bit is not masked).  Whenever the seconds register has
bit 0x80 set, `ds1302_rtc_read_time` decodes `tm_sec >= 80` and returns
`-EINVAL`, whatever the other registers hold. -/
theorem read_time_halted (c : Chip) (h : c.regs RTC_ADDR_SEC &&& 0x80 ≠ 0) :
    80 ≤ (ds1302_rtc_read_time chip c).2.1.tm_sec
    ∧ (ds1302_rtc_read_time chip c).1 = -EINVAL := by
  obtain ⟨r1, r2, _⟩ := chip_read_time c
  have hs : (80 : Int) ≤ (decoded c.regs).tm_sec := by
    have := bcd2bin_halted _ (halt_bit_set _ h)
    simp only [decoded]
    omega
  rw [r1, r2, rtc_valid_tm_eq _ (decoded_year_ge _)]
  refine ⟨hs, if_neg ?_⟩
  intro hw
  have := hw.2.2.2.2.2.2.2.2.2
  omega

/-- Witness of C10: seconds register 0x80 (halted at second 0) on an otherwise
valid date (1 January 2000). -/
theorem read_time_halted_witness :
    (Chip.idle (fun a => if a = 0 then 0x80 else if a = 3 ∨ a = 4 then 1 else 0)).regs
        RTC_ADDR_SEC &&& 0x80 ≠ 0
    ∧ (80 ≤ (ds1302_rtc_read_time chip
          (Chip.idle (fun a => if a = 0 then 0x80 else if a = 3 ∨ a = 4 then 1 else 0))).2.1.tm_sec
      ∧ (ds1302_rtc_read_time chip
          (Chip.idle (fun a => if a = 0 then 0x80 else if a = 3 ∨ a = 4 then 1 else 0))).1
        = -EINVAL) :=
  ⟨by decide, read_time_halted _ (by decide)⟩

/-! ## The clocked loopback under the driver's loops -/

theorem loopback_send (n : Nat) :
    ∀ (v : Nat) (lvl : Bool) (fifo : List Bool),
      ∃ lvl1, sendbits_loop loopback n v ⟨true, lvl, fifo⟩
        = ⟨true, lvl1, fifo ++ lsb_bits n v⟩ := by
  induction n with
  | zero =>
    intro v lvl fifo
    exact ⟨lvl, by simp [sendbits_loop, lsb_bits]⟩
  | succ n ih =>
    intro v lvl fifo
    obtain ⟨lvl1, e⟩ := ih (v / 2) (decide (v % 2 ≠ 0)) (fifo ++ [decide (v % 2 ≠ 0)])
    refine ⟨lvl1, ?_⟩
    have step : ds1302_clock loopback (ds1302_txbit loopback (v &&& 0x1) ⟨true, lvl, fifo⟩)
        = ⟨true, decide (v % 2 ≠ 0), fifo ++ [decide (v % 2 ≠ 0)]⟩ := by
      rcases Nat.mod_two_eq_zero_or_one v with h | h <;>
        simp [ds1302_clock, ds1302_txbit, loopback, h]
    rw [sendbits_loop, step, Nat.shiftRight_one, e]
    simp [lsb_bits]

theorem loopback_recv (n : Nat) :
    ∀ (i val w : Nat) (lvl : Bool) (rest : List Bool), val < 2 ^ i →
      recvbits_loop loopback n i val ⟨false, lvl, lsb_bits n w ++ rest⟩
        = (val + (w % 2 ^ n) * 2 ^ i, ⟨false, lvl, rest⟩) := by
  induction n with
  | zero =>
    intro i val w lvl rest _
    simp [recvbits_loop, lsb_bits, Nat.mod_one]
  | succ n ih =>
    intro i val w lvl rest hv
    have hb : w % 2 < 2 := Nat.mod_lt _ (by norm_num)
    have hv1 : val + (w % 2) * 2 ^ i < 2 ^ (i + 1) := by
      rw [pow_succ]
      nlinarith [Nat.two_pow_pos i]
    have e1 : ds1302_rxbit loopback ⟨false, lvl, lsb_bits (n + 1) w ++ rest⟩
        = (w % 2, ⟨false, lvl, lsb_bits (n + 1) w ++ rest⟩) := by
      rcases Nat.mod_two_eq_zero_or_one w with h | h <;>
        simp [ds1302_rxbit, loopback, lsb_bits, h]
    have e2 : ds1302_clock loopback ⟨false, lvl, lsb_bits (n + 1) w ++ rest⟩
        = ⟨false, lvl, lsb_bits n (w / 2) ++ rest⟩ := by
      simp [ds1302_clock, loopback, lsb_bits]
    rw [recvbits_loop, e1]
    simp only []
    rw [e2, or_shift_eq_add _ _ _ hv, ih (i + 1) _ (w / 2) lvl rest hv1,
      Nat.add_assoc val, bit_split]

/-- C4 (bit-order stability).  On the clocked loopback with nothing captured
yet, for every `x` in 0..255, `ds1302_recvbits()` applied directly after
`ds1302_sendbits(x)` returns exactly `x`. -/
theorem bit_order_stable (x : Nat) (s : Loopback) (hq : s.fifo = []) (hx : x < 256) :
    (ds1302_recvbits loopback (ds1302_sendbits loopback x s)).1 = x := by
  obtain ⟨io_out, level, fifo⟩ := s
  simp only at hq
  subst hq
  obtain ⟨lvl1, e⟩ := loopback_send 8 x true []
  have hs : ds1302_set_tx loopback ⟨io_out, level, []⟩ = ⟨true, true, []⟩ := by
    simp [ds1302_set_tx, loopback]
  have hr : ds1302_set_rx loopback ⟨true, lvl1, [] ++ lsb_bits 8 x⟩
      = ⟨false, lvl1, lsb_bits 8 x ++ []⟩ := by
    simp [ds1302_set_rx, loopback]
  rw [ds1302_sendbits, hs, e, ds1302_recvbits, hr,
    loopback_recv 8 0 0 x lvl1 [] (by norm_num)]
  simp only [Nat.zero_add, pow_zero, Nat.mul_one, Nat.reducePow]
  exact Nat.mod_eq_of_lt hx

/-- Witness of C4: the byte 0xA7, whose bit pattern is not symmetric. -/
theorem bit_order_stable_witness :
    (Loopback.mk false false []).fifo = [] ∧ (0xA7 : Nat) < 256
    ∧ (ds1302_recvbits loopback (ds1302_sendbits loopback 0xA7 ⟨false, false, []⟩)).1 = 0xA7 :=
  ⟨rfl, by decide, bit_order_stable 0xA7 ⟨false, false, []⟩ rfl (by decide)⟩

/-- On a plain latch (no clocked storage) every received bit is the last bit
sent, so the byte read back is 0xFF or 0x00 according to bit 7 of `x`. -/
theorem latch_reads_last_bit (x : Nat) (s : Bool) :
    (ds1302_recvbits latch (ds1302_sendbits latch x s)).1
      = if x / 128 % 2 ≠ 0 then 255 else 0 := by
  have hs : ds1302_sendbits latch x s = decide (x / 128 % 2 ≠ 0) := by
    rcases Nat.mod_two_eq_zero_or_one (x / 128) with h | h <;>
      simp [ds1302_sendbits, sendbits_loop, ds1302_set_tx, ds1302_txbit, ds1302_clock, latch,
        Nat.shiftRight_one, Nat.div_div_eq_div_mul, h]
  rw [hs]
  by_cases h : x / 128 % 2 ≠ 0
  · rw [if_pos h, decide_eq_true h]
    rfl
  · rw [if_neg h, decide_eq_false h]
    rfl

/-! ## The clock-halt bit during `ds1302_rtc_set_time` -/

set_option maxRecDepth 100000 in
theorem halt_write_mask : ∀ x, x < 256 → ((x ||| 0x80) % 256) &&& 0x80 = 0x80 := by
  decide

set_option maxRecDepth 100000 in
theorem low_seven_mask : ∀ x, x < 128 → x &&& 0x80 = 0 := by
  decide

/-- C2 (clock-halt bit), evaluated on the simulated chip.  The list gives bit
0x80 of the seconds register after each of the nine statements of
`ds1302_rtc_set_time` for the scenario time (seconds 45): it is set after the
halt write, but the write of the seconds field that follows stores 0x45 and
clears it, so it is clear while the remaining six fields are written.  After
`ds1302_rtc_set_time` returns it is clear, for every time `t`. -/
theorem set_time_halt_bit_lost (t : rtc_time) (c : Chip) :
    List.map (fun k => (set_time_after chip k scenario_time c).regs RTC_ADDR_SEC &&& 0x80)
        [1, 2, 3, 4, 5, 6, 7, 8, 9]
      = [0x80, 0, 0, 0, 0, 0, 0, 0, 0]
    ∧ (ds1302_rtc_set_time chip t c).2.regs RTC_ADDR_SEC &&& 0x80 = 0 := by
  constructor
  · have h1 := halt_write_mask (c.regs 0 % 256) (Nat.mod_lt _ (by norm_num))
    simp only [List.map, set_time_after, ds1302_rtc_set_time_stmts, List.take, run_stmts,
      List.foldl, chip_writebyte_regs, chip_readbyte_regs, chip_readbyte_val]
    simp [Function.update, RTC_ADDR_SEC, RTC_ADDR_MIN, RTC_ADDR_HOUR, RTC_ADDR_DAY,
      RTC_ADDR_DATE, RTC_ADDR_MON, RTC_ADDR_YEAR, scenario_time, to_unsigned, bin2bcd]
    exact ⟨h1, by decide, by decide⟩
  · rw [(chip_set_time_regs t c).2.1]
    exact low_seven_mask _ (Nat.mod_lt _ (by norm_num))

/-! ## The bus recorder under the driver's loops -/

theorem recorder_send (n : Nat) :
    ∀ (v : Nat) (s : Recorder),
      sendbits_loop recorder n v s
        = ⟨s.trace ++ (List.range n).flatMap
              (fun i => LineOp.set_value Pin.io_pin (v / 2 ^ i % 2) :: clock_pulse),
            s.samples, s.nreads⟩ := by
  induction n with
  | zero =>
    intro v s
    simp [sendbits_loop]
  | succ n ih =>
    intro v s
    have hf : (fun i => LineOp.set_value Pin.io_pin (v / 2 / 2 ^ i % 2) :: clock_pulse)
        = (fun i => LineOp.set_value Pin.io_pin (v / 2 ^ i % 2) :: clock_pulse) ∘ Nat.succ := by
      funext i
      simp [Nat.div_div_eq_div_mul, pow_succ, Nat.mul_comm]
    rw [sendbits_loop, Nat.shiftRight_one, ih, hf, List.range_succ_eq_map, List.flatMap_cons,
      List.flatMap_map]
    simp [ds1302_clock, ds1302_txbit, recorder, clock_pulse, Function.comp_def]

theorem recorder_recv (n : Nat) :
    ∀ (i val : Nat) (s : Recorder), val < 2 ^ i →
      recvbits_loop recorder n i val s
        = (val + ((List.range n).map
              (fun j => (if s.samples (s.nreads + j) ≠ 0 then 1 else 0) * 2 ^ (i + j))).sum,
            ⟨s.trace ++ (List.range n).flatMap
                (fun _ => LineOp.get_value Pin.io_pin :: clock_pulse),
              s.samples, s.nreads + n⟩) := by
  induction n with
  | zero =>
    intro i val s _
    simp [recvbits_loop]
  | succ n ih =>
    intro i val s hv
    have hb : (if s.samples s.nreads ≠ 0 then 1 else 0) < 2 := by
      split_ifs <;> norm_num
    have hv1 : val + (if s.samples s.nreads ≠ 0 then 1 else 0) * 2 ^ i < 2 ^ (i + 1) := by
      rw [pow_succ]
      nlinarith [Nat.two_pow_pos i]
    have e1 : ds1302_rxbit recorder s
        = ((if s.samples s.nreads ≠ 0 then 1 else 0),
            ⟨s.trace ++ [LineOp.get_value Pin.io_pin], s.samples, s.nreads + 1⟩) := by
      simp [ds1302_rxbit, recorder]
    rw [recvbits_loop, e1]
    simp only []
    rw [or_shift_eq_add _ _ _ hv, ih (i + 1) _ _ hv1, List.range_succ_eq_map,
      List.flatMap_cons, List.map_cons, List.sum_cons, List.map_map, List.flatMap_map]
    simp [ds1302_clock, recorder, clock_pulse, Function.comp_def, Nat.add_assoc,
      Nat.add_comm 1]

theorem recorder_writebyte (addr value : Nat) (s : Recorder) :
    ds1302_writebyte recorder addr value s
      = ⟨s.trace ++ write_frame (write_command addr) value, s.samples, s.nreads⟩ := by
  simp only [ds1302_writebyte, ds1302_sendbits, recorder_send]
  simp [ds1302_reset, ds1302_start, ds1302_stop, ds1302_set_tx, recorder, write_frame,
    frame_head, tx_slots]

theorem recorder_readbyte (addr : Nat) (s : Recorder) :
    ds1302_readbyte recorder addr s
      = (assemble s.samples s.nreads,
          ⟨s.trace ++ read_frame (read_command addr), s.samples, s.nreads + 8⟩) := by
  simp only [ds1302_readbyte, ds1302_sendbits, ds1302_recvbits, recorder_send]
  rw [recorder_recv 8 0 0 _ (by norm_num)]
  simp [ds1302_reset, ds1302_start, ds1302_stop, ds1302_set_tx, ds1302_set_rx, recorder,
    read_frame, frame_head, tx_slots, rx_slots, assemble]

/-- C9 (transaction framing).  For every `addr` and `value`, the line
operations of `ds1302_writebyte(addr, value)` are exactly `write_frame` and
those of `ds1302_readbyte(addr)` exactly `read_frame`: reset (chip-select low,
clock low, data line input), chip-select high, settle delay of 4, eight slots
with the data line as output carrying the command byte least-significant bit
first, eight slots carrying the low 8 bits of `value` (write) or sampling the
data line as input (read, sample `i` becoming bit `i` of the result), each slot
followed by one clock pulse, then chip-select low.  Each frame has exactly 16
clock pulses, and chip-select changes only at the reset, the start and the
stop. -/
theorem transaction_framing (addr value : Nat) (s : Recorder) :
    (ds1302_writebyte recorder addr value s).trace
        = s.trace ++ write_frame (write_command addr) value
    ∧ (ds1302_readbyte recorder addr s).2.trace = s.trace ++ read_frame (read_command addr)
    ∧ (ds1302_readbyte recorder addr s).1 = assemble s.samples s.nreads
    ∧ (ds1302_readbyte recorder addr s).2.nreads = s.nreads + 8
    ∧ (ds1302_writebyte recorder addr value s).nreads = s.nreads
    ∧ (write_frame (write_command addr) value).countP is_clock_high = 16
    ∧ (read_frame (read_command addr)).countP is_clock_high = 16
    ∧ (write_frame (write_command addr) value).filter is_cs_op
        = [LineOp.direction_output Pin.reset_pin 0, LineOp.set_value Pin.reset_pin 1,
            LineOp.set_value Pin.reset_pin 0]
    ∧ (read_frame (read_command addr)).filter is_cs_op
        = [LineOp.direction_output Pin.reset_pin 0, LineOp.set_value Pin.reset_pin 1,
            LineOp.set_value Pin.reset_pin 0] := by
  rw [recorder_writebyte, recorder_readbyte]
  exact ⟨rfl, rfl, rfl, rfl, rfl, rfl, rfl, rfl, rfl⟩

end DS1302
